import Mathlib

/-!
# Payroll application — shallow embedding and verification

Embedding of the payroll lifecycle / computation engine of the
Employee Payroll Management application (TypeScript/Express/Drizzle).

* Data model follows `shared/schema.ts` (enums `payroll_status`,
  `payroll_item_type`, `user_role`; tables `salary_structures`, `payrolls`,
  `payroll_items`, `audit_logs`).
* The storage layer follows the in-memory `MemStorage` class
  (`getCurrentSalaryStructure`, `createSalaryStructure`,
  `updateSalaryStructure`, `createPayroll`, `updatePayroll`,
  `createPayrollItem`, `createAuditLog`): JavaScript `Map`s keyed by
  auto-incremented integer ids are modelled as lists in insertion order
  together with the id counters.
* The role check follows the `/api/check-role` handler in the auth module.
* The operations in namespace `Ops` follow the Express routes module
  (`registerRoutes`): `POST /api/payrolls`, `POST /api/payrolls/:id/approve`,
  `POST /api/payrolls/:id/mark-paid`, `POST /api/payroll-items`,
  `POST /api/salary-structures`, and the audit-swallowing `createAuditLog`
  helper.  Each operation models the handler body after authentication and
  schema parsing; the role-gate middleware and the Zod parse step sit
  outside the model.

Monetary amounts (`decimal(10,2)` columns) are modelled as integer counts
of cents (`Int`), an exact fixed-point representation; the add-item
handler's float accumulation (`Number(item.amount)` with `+=`) is thereby
idealized as exact decimal arithmetic (see C4).  Dates and timestamps are
modelled as integers (epoch time); only their ordering matters.
-/

namespace Payroll

/-- Error kinds of the application (spec §7).  The `/api/check-role`
handler's `400 Invalid role` response is a `ValidationError` ("unknown
role" is listed under `ValidationError` in §7). -/
inductive ApiError where
  | Unauthorized
  | Forbidden
  | NotFound
  | ValidationError
  | InvalidState
deriving DecidableEq, Repr

/-- The `payroll_status` enum: `['draft', 'approved', 'paid']`. -/
inductive PayStatus where
  | draft
  | approved
  | paid
deriving DecidableEq, Repr

/-- Position of a status along the forward chain draft → approved → paid. -/
def statusRank : PayStatus → Nat
  | .draft => 0
  | .approved => 1
  | .paid => 2

/-- The `payroll_item_type` enum: `['earning', 'deduction']`. -/
inductive ItemType where
  | earning
  | deduction
deriving DecidableEq, Repr

/-- Row of the `salary_structures` table.  `status` is the boolean
"active" flag column; allowances are the four optional decimal columns. -/
structure SalaryStructure where
  id : Nat
  employeeId : Nat
  basicSalary : Int
  houseRentAllowance : Option Int
  conveyanceAllowance : Option Int
  medicalAllowance : Option Int
  specialAllowance : Option Int
  effectiveFrom : Int
  effectiveTo : Option Int
  status : Bool
deriving DecidableEq, Repr

/-- Row of the `payrolls` table. -/
structure PayrollRec where
  id : Nat
  employeeId : Nat
  payPeriodStart : Int
  payPeriodEnd : Int
  processDate : Int
  basicSalary : Int
  totalEarnings : Int
  totalDeductions : Int
  netSalary : Int
  status : PayStatus
  approvedBy : Option Nat
  approvalDate : Option Int
deriving DecidableEq, Repr

/-- Row of the `payroll_items` table. -/
structure PayrollItem where
  id : Nat
  payrollId : Nat
  itemType : ItemType
  itemName : String
  amount : Int
  description : Option String
deriving DecidableEq, Repr

/-- Row of the `employees` table, restricted to the columns the payroll
and salary-structure handlers read (`id` for the existence checks,
`userId` for record-level access, the display `employeeId` code for audit
details); the many remaining personal-data columns are omitted. -/
structure Employee where
  id : Nat
  userId : Option Nat
  employeeId : String
deriving DecidableEq, Repr

/-- Row of the `audit_logs` table. -/
structure AuditLog where
  id : Nat
  userId : Option Nat
  action : String
  entityType : String
  entityId : Option Nat
  details : Option String
  timestamp : Int
deriving DecidableEq, Repr

/-- The claim-relevant part of `MemStorage`: the `Map`s for employees,
salary structures, payrolls, payroll items and audit logs (as lists in
insertion order, matching `Array.from(map.values())`) and their id
counters.  The unrelated tables (users, departments, designations,
documents) are omitted. -/
structure Storage where
  employees : List Employee
  salaryStructures : List SalaryStructure
  payrolls : List PayrollRec
  payrollItems : List PayrollItem
  auditLogs : List AuditLog
  employeeCurrentId : Nat
  salaryStructureCurrentId : Nat
  payrollCurrentId : Nat
  payrollItemCurrentId : Nat
  auditLogCurrentId : Nat
deriving DecidableEq, Repr

/-- The storage as constructed by `new MemStorage()` — `initData` seeds
users/departments/designations only, so all claim-relevant tables start
empty with counters at 1. -/
def emptyStorage : Storage :=
  { employees := []
    salaryStructures := []
    payrolls := []
    payrollItems := []
    auditLogs := []
    employeeCurrentId := 1
    salaryStructureCurrentId := 1
    payrollCurrentId := 1
    payrollItemCurrentId := 1
    auditLogCurrentId := 1 }

/-- `MemStorage.getEmployee(id)`: `this.employees.get(id)`. -/
def getEmployee (st : Storage) (id : Nat) : Option Employee :=
  st.employees.find? (fun e => e.id == id)

/-- The filter of `getCurrentSalaryStructure`: the structure belongs to the
employee, its active flag (`status`) is true, `effectiveFrom <= now`, and
`effectiveTo` is unset or `>= now`.  This is also what the spec calls
"active-and-current". -/
def qualifies (now : Int) (employeeId : Nat) (s : SalaryStructure) : Bool :=
  s.employeeId == employeeId && s.status &&
    s.effectiveFrom ≤ now &&
    (match s.effectiveTo with
     | none => true
     | some t => now ≤ t)

/-- Head of the stable descending-by-`effectiveFrom` sort of a list, i.e.
the first element of the list attaining the maximal `effectiveFrom`.
`Array.prototype.sort` is stable (ES2019), so
`.sort((a, b) => dateB.getTime() - dateA.getTime())[0]` returns exactly
the first-in-insertion-order element among those with the latest
`effectiveFrom`. -/
def selectCurrent : List SalaryStructure → Option SalaryStructure
  | [] => none
  | s :: rest =>
    match selectCurrent rest with
    | none => some s
    | some best => if best.effectiveFrom > s.effectiveFrom then some best else some s

/-- `MemStorage.getCurrentSalaryStructure(employeeId)` at time `now`:
filters the structures by `qualifies` and takes the head of the stable
descending sort by `effectiveFrom`. -/
def getCurrentSalaryStructure (st : Storage) (employeeId : Nat) (now : Int) :
    Option SalaryStructure :=
  selectCurrent (st.salaryStructures.filter (qualifies now employeeId))

/-- `MemStorage.getPayroll(id)`: `this.payrolls.get(id)`. -/
def getPayroll (st : Storage) (id : Nat) : Option PayrollRec :=
  st.payrolls.find? (fun p => p.id == id)

/-- Insert payload of a salary structure (`InsertSalaryStructure`, the row
minus the generated `id`). -/
structure InsertSalaryStructure where
  employeeId : Nat
  basicSalary : Int
  houseRentAllowance : Option Int
  conveyanceAllowance : Option Int
  medicalAllowance : Option Int
  specialAllowance : Option Int
  effectiveFrom : Int
  effectiveTo : Option Int
  status : Bool
deriving DecidableEq, Repr

/-- `MemStorage.createSalaryStructure`: assigns `id = salaryStructureCurrentId++`
and inserts the row (new `Map` keys append in insertion order). -/
def createSalaryStructure (st : Storage) (ins : InsertSalaryStructure) :
    Storage × SalaryStructure :=
  let s : SalaryStructure :=
    { id := st.salaryStructureCurrentId
      employeeId := ins.employeeId
      basicSalary := ins.basicSalary
      houseRentAllowance := ins.houseRentAllowance
      conveyanceAllowance := ins.conveyanceAllowance
      medicalAllowance := ins.medicalAllowance
      specialAllowance := ins.specialAllowance
      effectiveFrom := ins.effectiveFrom
      effectiveTo := ins.effectiveTo
      status := ins.status }
  ({ st with
      salaryStructures := st.salaryStructures ++ [s]
      salaryStructureCurrentId := st.salaryStructureCurrentId + 1 }, s)

/-- A `Partial<SalaryStructure>` as used by `updateSalaryStructure`: a
field is `some v` when the key is present in the update object. -/
structure SalaryStructurePatch where
  employeeId : Option Nat := none
  basicSalary : Option Int := none
  effectiveFrom : Option Int := none
  effectiveTo : Option (Option Int) := none
  status : Option Bool := none
deriving DecidableEq, Repr

/-- The spread merge `{ ...salaryStructure, ...data }` for the patched
fields. -/
def SalaryStructure.applyPatch (s : SalaryStructure) (d : SalaryStructurePatch) :
    SalaryStructure :=
  { s with
      employeeId := d.employeeId.getD s.employeeId
      basicSalary := d.basicSalary.getD s.basicSalary
      effectiveFrom := d.effectiveFrom.getD s.effectiveFrom
      effectiveTo := d.effectiveTo.getD s.effectiveTo
      status := d.status.getD s.status }

/-- `MemStorage.updateSalaryStructure(id, data)`: looks up the row by id,
merges `{ ...row, ...data }` and stores it back under the same key
(`Map.set` on an existing key keeps the insertion position). -/
def updateSalaryStructure (st : Storage) (id : Nat) (d : SalaryStructurePatch) :
    Storage :=
  match st.salaryStructures.find? (fun s => s.id == id) with
  | none => st
  | some s =>
    let updated := s.applyPatch d
    { st with
        salaryStructures :=
          st.salaryStructures.map (fun q => if q.id == id then updated else q) }

/-- Insert payload of a payroll row (`InsertPayroll`). -/
structure InsertPayroll where
  employeeId : Nat
  payPeriodStart : Int
  payPeriodEnd : Int
  processDate : Int
  basicSalary : Int
  totalEarnings : Int
  totalDeductions : Int
  netSalary : Int
  status : PayStatus
  approvedBy : Option Nat
deriving DecidableEq, Repr

/-- `MemStorage.createPayroll`: assigns `id = payrollCurrentId++` and
inserts the row. -/
def createPayroll (st : Storage) (ins : InsertPayroll) : Storage × PayrollRec :=
  let p : PayrollRec :=
    { id := st.payrollCurrentId
      employeeId := ins.employeeId
      payPeriodStart := ins.payPeriodStart
      payPeriodEnd := ins.payPeriodEnd
      processDate := ins.processDate
      basicSalary := ins.basicSalary
      totalEarnings := ins.totalEarnings
      totalDeductions := ins.totalDeductions
      netSalary := ins.netSalary
      status := ins.status
      approvedBy := ins.approvedBy
      approvalDate := none }
  ({ st with
      payrolls := st.payrolls ++ [p]
      payrollCurrentId := st.payrollCurrentId + 1 }, p)

/-- A `Partial<Payroll>` as used by `updatePayroll`. -/
structure PayrollPatch where
  totalEarnings : Option Int := none
  totalDeductions : Option Int := none
  netSalary : Option Int := none
  status : Option PayStatus := none
  approvedBy : Option (Option Nat) := none
  approvalDate : Option (Option Int) := none
deriving DecidableEq, Repr

/-- The spread merge `{ ...payroll, ...data }` for the patched fields. -/
def PayrollRec.applyPatch (p : PayrollRec) (d : PayrollPatch) : PayrollRec :=
  { p with
      totalEarnings := d.totalEarnings.getD p.totalEarnings
      totalDeductions := d.totalDeductions.getD p.totalDeductions
      netSalary := d.netSalary.getD p.netSalary
      status := d.status.getD p.status
      approvedBy := d.approvedBy.getD p.approvedBy
      approvalDate := d.approvalDate.getD p.approvalDate }

/-- `MemStorage.updatePayroll(id, data)`: looks up the row by id, merges
`{ ...payroll, ...data }` and stores it back under the same key. -/
def updatePayroll (st : Storage) (id : Nat) (d : PayrollPatch) : Storage :=
  match getPayroll st id with
  | none => st
  | some p =>
    let updated := p.applyPatch d
    { st with
        payrolls := st.payrolls.map (fun q => if q.id == id then updated else q) }

/-- Insert payload of a payroll item (`InsertPayrollItem`,
`insertPayrollItemSchema = createInsertSchema(payrollItems).omit({ id })`). -/
structure InsertPayrollItem where
  payrollId : Nat
  itemType : ItemType
  itemName : String
  amount : Int
  description : Option String
deriving DecidableEq, Repr

/-- `MemStorage.createPayrollItem`: assigns `id = payrollItemCurrentId++`
and inserts the row. -/
def createPayrollItem (st : Storage) (ins : InsertPayrollItem) :
    Storage × PayrollItem :=
  let it : PayrollItem :=
    { id := st.payrollItemCurrentId
      payrollId := ins.payrollId
      itemType := ins.itemType
      itemName := ins.itemName
      amount := ins.amount
      description := ins.description }
  ({ st with
      payrollItems := st.payrollItems ++ [it]
      payrollItemCurrentId := st.payrollItemCurrentId + 1 }, it)

/-- `MemStorage.getPayrollItemsByPayroll(payrollId)`. -/
def getPayrollItemsByPayroll (st : Storage) (payrollId : Nat) : List PayrollItem :=
  st.payrollItems.filter (fun it => it.payrollId == payrollId)

/-- `MemStorage.createAuditLog`: assigns `id = auditLogCurrentId++` and the
server timestamp, then inserts the row. -/
def createAuditLog (st : Storage) (now : Int) (userId : Option Nat)
    (action entityType : String) (entityId : Option Nat)
    (details : Option String) : Storage :=
  let a : AuditLog :=
    { id := st.auditLogCurrentId
      userId := userId
      action := action
      entityType := entityType
      entityId := entityId
      details := details
      timestamp := now }
  { st with
      auditLogs := st.auditLogs ++ [a]
      auditLogCurrentId := st.auditLogCurrentId + 1 }

/-- Sum of the amounts of the items of one payroll having one type, over
an explicit item list. -/
def itemSum (l : List PayrollItem) (payrollId : Nat) (ty : ItemType) : Int :=
  ((l.filter (fun it => it.payrollId == payrollId && it.itemType == ty)).map
    (fun it => it.amount)).sum

/-- Sum of the amounts of the items of one payroll having one type — the
spec's `totalsFor` (§4.3), one component at a time. -/
def sumAmounts (st : Storage) (payrollId : Nat) (ty : ItemType) : Int :=
  itemSum st.payrollItems payrollId ty

/-- The `createAuditLog` helper of the routes module: wraps
`storage.createAuditLog` in try/catch, logging to the console and
swallowing the error on failure.  `auditOk` is true when audit storage is
available; on failure the storage is left untouched. -/
def recordAudit (auditOk : Bool) (st : Storage) (now : Int) (actor : Nat)
    (action entityType : String) (entityId : Option Nat)
    (details : Option String) : Storage :=
  if auditOk then createAuditLog st now (some actor) action entityType entityId details
  else st

namespace Ops

/-- The `POST /api/payrolls` handler: parses an `InsertPayroll` from the
request body (so employeeId, the pay period, basicSalary, the totals, the
net salary, the status and approvedBy are all client-supplied), fails with
404 `NotFound` when the referenced employee does not exist, overrides
`processDate` with the server time, inserts `{ ...payrollData, processDate }`
and emits one audit entry.  It performs no pay-period check, never
consults the salary structures, and stores the supplied monetary fields
and status verbatim. -/
def create (now : Int) (auditOk : Bool) (st : Storage) (actor : Nat)
    (ins : InsertPayroll) : Except ApiError Storage :=
  match getEmployee st ins.employeeId with
  | none => .error .NotFound
  | some _employee =>
    let (st1, p) := createPayroll st { ins with processDate := now }
    .ok (recordAudit auditOk st1 now actor "create" "payroll" (some p.id) none)

/-- The `POST /api/payrolls/:id/approve` handler: 404 `NotFound` when the
payroll does not exist; 400 `InvalidState` ("already approved or paid")
unless the current status is exactly `draft`; otherwise updates the
payroll with `status = approved`, `approvedBy = req.user.id`,
`approvalDate = now`, and emits one audit entry. -/
def approve (now : Int) (auditOk : Bool) (st : Storage) (payrollId : Nat)
    (approverId : Nat) : Except ApiError Storage :=
  match getPayroll st payrollId with
  | none => .error .NotFound
  | some p =>
    if p.status ≠ .draft then .error .InvalidState
    else
      let st1 := updatePayroll st payrollId
        { status := some .approved
          approvedBy := some (some approverId)
          approvalDate := some (some now) }
      .ok (recordAudit auditOk st1 now approverId "approve" "payroll" (some payrollId) none)

/-- The `POST /api/payrolls/:id/mark-paid` handler: 404 `NotFound` when
the payroll does not exist; 400 `InvalidState` ("must be approved before
marking as paid") unless the current status is exactly `approved`;
otherwise updates the payroll with `status = paid` only, and emits one
audit entry. -/
def markPaid (now : Int) (auditOk : Bool) (st : Storage) (payrollId : Nat)
    (actor : Nat) : Except ApiError Storage :=
  match getPayroll st payrollId with
  | none => .error .NotFound
  | some p =>
    if p.status ≠ .approved then .error .InvalidState
    else
      let st1 := updatePayroll st payrollId { status := some .paid }
      .ok (recordAudit auditOk st1 now actor "paid" "payroll" (some payrollId) none)

/-- The `POST /api/payroll-items` handler: parses an `InsertPayrollItem`
(the schema imposes no amount or name constraint), 404 `NotFound` when the
owning payroll does not exist, 400 `InvalidState` ("cannot modify items
for approved or paid payroll") when its status is not `draft`; otherwise
inserts the item, recomputes both totals over all items of the payroll by
type, sets `netSalary = basicSalary + totalEarnings − totalDeductions`,
and persists the three fields via `updatePayroll`.  The handler emits no
audit entry.  (The handler accumulates with JavaScript `Number`; the sums
are modelled here in exact integer cents.) -/
def addItem (now : Int) (auditOk : Bool) (st : Storage)
    (item : InsertPayrollItem) : Except ApiError Storage :=
  match getPayroll st item.payrollId with
  | none => .error .NotFound
  | some p =>
    if p.status ≠ .draft then .error .InvalidState
    else
      let (st1, _it) := createPayrollItem st item
      let e := sumAmounts st1 item.payrollId .earning
      let d := sumAmounts st1 item.payrollId .deduction
      .ok (updatePayroll st1 item.payrollId
        { totalEarnings := some e
          totalDeductions := some d
          netSalary := some (p.basicSalary + e - d) })

/-- The `POST /api/salary-structures` handler (the spec's "supersede"):
parses an `InsertSalaryStructure`, 404 `NotFound` when the referenced
employee does not exist; when the new structure's active flag is set,
locates the existing active-and-current structure (if any) via
`getCurrentSalaryStructure` and retires it (`status = false`,
`effectiveTo = new.effectiveFrom`); then inserts the new structure as
supplied and emits one audit entry (entity type `salary`). -/
def supersede (now : Int) (auditOk : Bool) (st : Storage) (actor : Nat)
    (ins : InsertSalaryStructure) : Except ApiError Storage :=
  match getEmployee st ins.employeeId with
  | none => .error .NotFound
  | some _employee =>
    let st1 :=
      if ins.status then
        match getCurrentSalaryStructure st ins.employeeId now with
        | none => st
        | some cur =>
          updateSalaryStructure st cur.id
            { status := some false, effectiveTo := some (some ins.effectiveFrom) }
      else st
    let (st2, s) := createSalaryStructure st1 ins
    .ok (recordAudit auditOk st2 now actor "create" "salary" (some s.id) none)

end Ops

/-- One state-changing operation of the core surface, with its request
parameters. -/
inductive Op where
  | createOp (actor : Nat) (ins : InsertPayroll)
  | addItemOp (item : InsertPayrollItem)
  | approveOp (payrollId approverId : Nat)
  | markPaidOp (actor payrollId : Nat)
  | supersedeOp (actor : Nat) (ins : InsertSalaryStructure)
deriving DecidableEq, Repr

/-- Dispatch one operation. -/
def runOp (now : Int) (auditOk : Bool) (st : Storage) : Op → Except ApiError Storage
  | .createOp actor ins => Ops.create now auditOk st actor ins
  | .addItemOp item => Ops.addItem now auditOk st item
  | .approveOp pid approver => Ops.approve now auditOk st pid approver
  | .markPaidOp actor pid => Ops.markPaid now auditOk st pid actor
  | .supersedeOp actor ins => Ops.supersede now auditOk st actor ins

/-- Apply one operation: failures short-circuit before any mutation (§7),
so a failing operation leaves the storage unchanged. -/
def applyOp (now : Int) (auditOk : Bool) (st : Storage) (op : Op) : Storage :=
  match runOp now auditOk st op with
  | .ok st1 => st1
  | .error _ => st

/-- Apply a sequence of operations in order. -/
def applyOps (now : Int) (auditOk : Bool) (st : Storage) : List Op → Storage
  | [] => st
  | op :: ops => applyOps now auditOk (applyOp now auditOk st op) ops

/-- Forget the audit table: the projection of a storage onto its primary
(non-audit) state. -/
def stripAudit (st : Storage) : Storage :=
  { st with auditLogs := [], auditLogCurrentId := 1 }

/-! ## Frame lemmas for the storage operations -/

theorem getPayroll_recordAudit (b : Bool) (st : Storage) (now : Int) (a : Nat)
    (act ety : String) (eid : Option Nat) (det : Option String) (pid : Nat) :
    getPayroll (recordAudit b st now a act ety eid det) pid = getPayroll st pid := by
  cases b <;> rfl

theorem stripAudit_recordAudit (b : Bool) (st : Storage) (now : Int) (a : Nat)
    (act ety : String) (eid : Option Nat) (det : Option String) :
    stripAudit (recordAudit b st now a act ety eid det) = stripAudit st := by
  cases b <;> rfl

theorem getPayroll_createPayroll {st : Storage} {pid : Nat} {p : PayrollRec}
    (ins : InsertPayroll) (hp : getPayroll st pid = some p) :
    getPayroll (createPayroll st ins).1 pid = some p := by
  unfold getPayroll at hp ⊢
  unfold createPayroll
  simp only [List.find?_append, hp, Option.or_some]

theorem getPayroll_createPayrollItem (st : Storage) (ins : InsertPayrollItem)
    (pid : Nat) :
    getPayroll (createPayrollItem st ins).1 pid = getPayroll st pid := rfl

theorem getPayroll_createSalaryStructure (st : Storage)
    (ins : InsertSalaryStructure) (pid : Nat) :
    getPayroll (createSalaryStructure st ins).1 pid = getPayroll st pid := rfl

theorem getPayroll_updateSalaryStructure (st : Storage) (id : Nat)
    (d : SalaryStructurePatch) (pid : Nat) :
    getPayroll (updateSalaryStructure st id d) pid = getPayroll st pid := by
  unfold updateSalaryStructure
  split <;> rfl

theorem find?_map_replace_self {l : List PayrollRec} {pid : Nat}
    {u p : PayrollRec} (hu : u.id = pid)
    (h : l.find? (fun q => q.id == pid) = some p) :
    (l.map (fun q => if q.id == pid then u else q)).find?
      (fun q => q.id == pid) = some u := by
  induction l with
  | nil => simp at h
  | cons a rest ih =>
    rw [List.map_cons, List.find?_cons]
    by_cases ha : (a.id == pid) = true
    · rw [if_pos ha]
      simp [hu]
    · rw [if_neg ha]
      rw [List.find?_cons] at h
      rw [Bool.not_eq_true] at ha
      rw [ha] at h
      rw [ha]
      exact ih h

theorem find?_map_replace_ne {l : List PayrollRec} {pid pid2 : Nat}
    {u : PayrollRec} (hu : u.id = pid2) (hne : pid ≠ pid2) :
    (l.map (fun q => if q.id == pid2 then u else q)).find?
      (fun q => q.id == pid) = l.find? (fun q => q.id == pid) := by
  induction l with
  | nil => rfl
  | cons a rest ih =>
    rw [List.map_cons, List.find?_cons, List.find?_cons]
    by_cases ha : (a.id == pid2) = true
    · have haeq : a.id = pid2 := by simpa using ha
      have ha2 : (a.id == pid) = false := by
        rw [haeq]
        exact beq_eq_false_iff_ne.mpr (Ne.symm hne)
      have hu2 : (u.id == pid) = false := by
        rw [hu]
        exact beq_eq_false_iff_ne.mpr (Ne.symm hne)
      rw [if_pos ha, hu2, ha2]
      exact ih
    · rw [if_neg ha]
      cases hap : (a.id == pid) with
      | true => rfl
      | false => exact ih

theorem getPayroll_updatePayroll_self {st : Storage} {pid : Nat}
    {p : PayrollRec} (d : PayrollPatch) (hp : getPayroll st pid = some p) :
    getPayroll (updatePayroll st pid d) pid = some (p.applyPatch d) := by
  have hp2 : st.payrolls.find? (fun q => q.id == pid) = some p := hp
  have hid : p.id = pid := by simpa using List.find?_some hp2
  unfold updatePayroll
  rw [hp]
  show (st.payrolls.map
      (fun q => if q.id == pid then p.applyPatch d else q)).find?
    (fun q => q.id == pid) = some (p.applyPatch d)
  exact find?_map_replace_self (by simp [PayrollRec.applyPatch, hid]) hp2

theorem getPayroll_updatePayroll_ne {st : Storage} {pid pid2 : Nat}
    (d : PayrollPatch) (hne : pid ≠ pid2) :
    getPayroll (updatePayroll st pid2 d) pid = getPayroll st pid := by
  unfold updatePayroll
  cases hm : getPayroll st pid2 with
  | none => rfl
  | some q =>
    have hm2 : st.payrolls.find? (fun r => r.id == pid2) = some q := hm
    have hid : q.id = pid2 := by simpa using List.find?_some hm2
    show (st.payrolls.map
        (fun r => if r.id == pid2 then q.applyPatch d else r)).find?
      (fun r => r.id == pid) = getPayroll st pid
    exact find?_map_replace_ne (by simp [PayrollRec.applyPatch, hid]) hne

/-! ## Selection of the current salary structure -/

theorem selectCurrent_eq_none {l : List SalaryStructure} :
    selectCurrent l = none ↔ l = [] := by
  cases l with
  | nil => simp [selectCurrent]
  | cons a rest =>
    simp only [selectCurrent]
    constructor
    · intro h
      cases hsc : selectCurrent rest with
      | none => rw [hsc] at h; exact absurd h (by simp)
      | some best =>
        rw [hsc] at h
        by_cases hgt : best.effectiveFrom > a.effectiveFrom <;> simp [hgt] at h
    · intro h; exact absurd h (by simp)

/-- `selectCurrent` returns exactly the first element of the list attaining
the maximal `effectiveFrom`: everything before it is strictly smaller,
everything after it is no larger. -/
theorem selectCurrent_eq_some {l : List SalaryStructure} {s : SalaryStructure}
    (h : selectCurrent l = some s) :
    ∃ pre post, l = pre ++ s :: post ∧
      (∀ x ∈ pre, x.effectiveFrom < s.effectiveFrom) ∧
      (∀ x ∈ post, x.effectiveFrom ≤ s.effectiveFrom) := by
  induction l generalizing s with
  | nil => simp [selectCurrent] at h
  | cons a rest ih =>
    simp only [selectCurrent] at h
    cases hsc : selectCurrent rest with
    | none =>
      rw [hsc] at h
      have hrest : rest = [] := selectCurrent_eq_none.mp hsc
      subst hrest
      have has : a = s := by simpa using h
      subst has
      exact ⟨[], [], rfl, by simp, by simp⟩
    | some best =>
      rw [hsc] at h
      have h : (if best.effectiveFrom > a.effectiveFrom then some best else some a)
          = some s := h
      by_cases hgt : best.effectiveFrom > a.effectiveFrom
      · rw [if_pos hgt] at h
        have hbs : best = s := by simpa using h
        subst hbs
        obtain ⟨pre, post, hl, hpre, hpost⟩ := ih hsc
        refine ⟨a :: pre, post, by rw [hl]; rfl, ?_, hpost⟩
        intro x hx
        rcases List.mem_cons.mp hx with hx | hx
        · subst hx; exact hgt
        · exact hpre x hx
      · rw [if_neg hgt] at h
        have has : a = s := by simpa using h
        subst has
        push_neg at hgt
        obtain ⟨pre, post, hl, hpre, hpost⟩ := ih hsc
        refine ⟨[], rest, rfl, by simp, ?_⟩
        intro x hx
        rw [hl] at hx
        rcases List.mem_append.mp hx with hx | hx
        · exact le_of_lt (lt_of_lt_of_le (hpre x hx) hgt)
        · rcases List.mem_cons.mp hx with hx | hx
          · subst hx; exact hgt
          · exact le_trans (hpost x hx) hgt

/-- A qualifying structure for employee 1, created first (id 1). -/
def c7S1 : SalaryStructure :=
  { id := 1
    employeeId := 1
    basicSalary := 500000
    houseRentAllowance := none
    conveyanceAllowance := none
    medicalAllowance := none
    specialAllowance := none
    effectiveFrom := 10
    effectiveTo := none
    status := true }

/-- A second qualifying structure with the same `effectiveFrom`, created
afterwards (id 2). -/
def c7S2 : SalaryStructure := { c7S1 with id := 2 }

/-- Storage holding the two tied structures, in creation order. -/
def c7St : Storage :=
  { emptyStorage with
      salaryStructures := [c7S1, c7S2]
      salaryStructureCurrentId := 3 }

/-- Counterexample to C7 as stated: both structures qualify at time 100
and share the latest `effectiveFrom`; the most recently created one is
`c7S2` (id 2), yet `getCurrentSalaryStructure` returns `c7S1` (id 1) —
JavaScript's stable sort keeps ties in insertion order, so `[0]` is the
first-created qualifier, not the most recently created one. -/
theorem c7_counterexample :
    qualifies 100 1 c7S1 = true ∧ qualifies 100 1 c7S2 = true ∧
    c7S1.effectiveFrom = c7S2.effectiveFrom ∧
    c7S1.id = 1 ∧ c7S2.id = 2 ∧
    getCurrentSalaryStructure c7St 1 100 = some c7S1 ∧
    getCurrentSalaryStructure c7St 1 100 ≠ some c7S2 := by
  decide

/-- C7 (amended): `currentStructure(employeeId, asOf)` selects, among the
employee's structures with active=true, `effectiveFrom ≤ asOf`, and
`effectiveTo` unset or `≥ asOf`, the one with the latest `effectiveFrom`;
when more than one qualifying structure shares that same latest
`effectiveFrom`, the earliest-created (first-inserted) one is selected;
and it returns no structure (NotFound) exactly when no structure
qualifies. -/
theorem c7_current_structure_selection (st : Storage) (e : Nat) (now : Int) :
    (getCurrentSalaryStructure st e now = none ↔
      ∀ s ∈ st.salaryStructures, qualifies now e s = false)
    ∧ ∀ s, getCurrentSalaryStructure st e now = some s →
        qualifies now e s = true ∧
        ∃ pre post,
          st.salaryStructures.filter (qualifies now e) = pre ++ s :: post ∧
          (∀ x ∈ pre, x.effectiveFrom < s.effectiveFrom) ∧
          (∀ x ∈ post, x.effectiveFrom ≤ s.effectiveFrom) := by
  constructor
  · rw [getCurrentSalaryStructure, selectCurrent_eq_none, List.filter_eq_nil_iff]
    constructor
    · intro h s hs
      exact Bool.not_eq_true _ ▸ h s hs
    · intro h s hs
      simp [h s hs]
  · intro s hsel
    obtain ⟨pre, post, hl, hpre, hpost⟩ := selectCurrent_eq_some hsel
    refine ⟨?_, pre, post, hl, hpre, hpost⟩
    have hmem : s ∈ st.salaryStructures.filter (qualifies now e) := by
      rw [hl]
      exact List.mem_append.mpr (Or.inr (List.mem_cons_self _ _))
    exact (List.mem_filter.mp hmem).2

/-- Witness for C7 (amended) at the tied-structures storage: the selected
structure `c7S1` qualifies and heads the qualifier list with no
strictly-later `effectiveFrom` anywhere. -/
theorem c7_current_structure_selection_witness :
    qualifies 100 1 c7S1 = true ∧
    ∃ pre post,
      c7St.salaryStructures.filter (qualifies 100 1) = pre ++ c7S1 :: post ∧
      (∀ x ∈ pre, x.effectiveFrom < c7S1.effectiveFrom) ∧
      (∀ x ∈ post, x.effectiveFrom ≤ c7S1.effectiveFrom) :=
  (c7_current_structure_selection c7St 1 100).2 c7S1 (by decide)

/-! ## C9: audit failure is non-fatal -/

/-- C9: for every state-changing operation, the outcome and the primary
(non-audit) state are identical whether audit storage is available
(`auditOk = true`) or unavailable (`auditOk = false`): audit failure is
swallowed and never surfaces as a failure of the triggering operation,
whose state change stays intact. -/
theorem c9_audit_nonfatal (now : Int) (st : Storage) (op : Op) :
    (runOp now true st op).map stripAudit = (runOp now false st op).map stripAudit := by
  cases op <;>
    simp only [runOp, Ops.create, Ops.addItem, Ops.approve, Ops.markPaid,
      Ops.supersede] <;>
    (repeat' split) <;>
    rfl

/-! ## C10: markPaid changes only the status field -/

/-- C10: a successful `markPaid` on an approved payroll rewrites the record
to the same record with only `status` set to `paid`: every other field —
employeeId, pay period, processDate, basicSalary, totals, netSalary,
approvedBy, approvalDate — is preserved. -/
theorem c10_markPaid_frame (now : Int) (auditOk : Bool) (st : Storage)
    (pid actor : Nat) (p : PayrollRec) (hp : getPayroll st pid = some p)
    (hs : p.status = .approved) :
    ∃ st1, Ops.markPaid now auditOk st pid actor = .ok st1 ∧
      getPayroll st1 pid = some { p with status := .paid } := by
  unfold Ops.markPaid
  rw [hp]
  have hcond : ¬ (p.status ≠ PayStatus.approved) := by simp [hs]
  refine ⟨recordAudit auditOk (updatePayroll st pid { status := some PayStatus.paid })
    now actor "paid" "payroll" (some pid) none, ?_, ?_⟩
  · exact if_neg hcond
  · rw [getPayroll_recordAudit,
      getPayroll_updatePayroll_self { status := some PayStatus.paid } hp]
    simp [PayrollRec.applyPatch]

/-- The approved payroll used to witness C10. -/
def c10P : PayrollRec :=
  { id := 1
    employeeId := 1
    payPeriodStart := 0
    payPeriodEnd := 30
    processDate := 5
    basicSalary := 500000
    totalEarnings := 50000
    totalDeductions := 20000
    netSalary := 530000
    status := .approved
    approvedBy := some 3
    approvalDate := some 6 }

/-- Storage holding the approved payroll `c10P`. -/
def c10St : Storage :=
  { emptyStorage with payrolls := [c10P], payrollCurrentId := 2 }

/-- Witness for C10: marking the concrete approved payroll paid preserves
every field but `status`. -/
theorem c10_markPaid_frame_witness :
    ∃ st1, Ops.markPaid 7 true c10St 1 9 = .ok st1 ∧
      getPayroll st1 1 = some { c10P with status := .paid } :=
  c10_markPaid_frame 7 true c10St 1 9 c10P rfl rfl

/-! ## C1: the status machine only moves forward -/

theorem getPayroll_eq_of_payrolls_eq {st1 st2 : Storage}
    (h : st1.payrolls = st2.payrolls) (pid : Nat) :
    getPayroll st1 pid = getPayroll st2 pid := by
  unfold getPayroll
  rw [h]

theorem payrolls_updateSalaryStructure (st : Storage) (id : Nat)
    (d : SalaryStructurePatch) :
    (updateSalaryStructure st id d).payrolls = st.payrolls := by
  unfold updateSalaryStructure
  split <;> rfl

theorem payrolls_recordAudit (b : Bool) (st : Storage) (now : Int) (a : Nat)
    (act ety : String) (eid : Option Nat) (det : Option String) :
    (recordAudit b st now a act ety eid det).payrolls = st.payrolls := by
  cases b <;> rfl

theorem applyOp_create_getPayroll {st : Storage} {pid : Nat} {p : PayrollRec}
    (hp : getPayroll st pid = some p) (now : Int) (b : Bool)
    (actor : Nat) (ins : InsertPayroll) :
    getPayroll (applyOp now b st (Op.createOp actor ins)) pid = some p := by
  simp only [applyOp, runOp, Ops.create]
  cases he : getEmployee st ins.employeeId with
  | none => exact hp
  | some emp =>
    exact (getPayroll_recordAudit b _ now actor "create" "payroll" _ none pid).trans
      (getPayroll_createPayroll _ hp)

theorem applyOp_addItem_status {st : Storage} {pid : Nat} {p : PayrollRec}
    (hp : getPayroll st pid = some p) (now : Int) (b : Bool)
    (item : InsertPayrollItem) :
    ∃ p1, getPayroll (applyOp now b st (Op.addItemOp item)) pid = some p1 ∧
      p1.status = p.status := by
  simp only [applyOp, runOp, Ops.addItem]
  cases hq : getPayroll st item.payrollId with
  | none => exact ⟨p, hp, rfl⟩
  | some q =>
    simp only
    by_cases hst : q.status ≠ PayStatus.draft
    · rw [if_pos hst]; exact ⟨p, hp, rfl⟩
    · rw [if_neg hst]
      by_cases hpp : pid = item.payrollId
      · subst hpp
        have hp1 : getPayroll (createPayrollItem st item).1 item.payrollId
            = some p := hp
        exact ⟨_, getPayroll_updatePayroll_self _ hp1, rfl⟩
      · exact ⟨p, (getPayroll_updatePayroll_ne _ hpp).trans hp, rfl⟩

theorem applyOp_approve_status {st : Storage} {pid : Nat} {p : PayrollRec}
    (hp : getPayroll st pid = some p) (now : Int) (b : Bool)
    (pid2 ap : Nat) :
    ∃ p1, getPayroll (applyOp now b st (Op.approveOp pid2 ap)) pid = some p1 ∧
      (p1.status = p.status ∨ (p.status = .draft ∧ p1.status = .approved)) := by
  simp only [applyOp, runOp, Ops.approve]
  cases hq : getPayroll st pid2 with
  | none => exact ⟨p, hp, Or.inl rfl⟩
  | some q =>
    simp only
    by_cases hst : q.status ≠ PayStatus.draft
    · rw [if_pos hst]; exact ⟨p, hp, Or.inl rfl⟩
    · rw [if_neg hst]
      by_cases hpp : pid = pid2
      · subst hpp
        have hqp : q = p := by
          rw [hq] at hp
          exact Option.some.inj hp
        subst hqp
        exact ⟨_,
          (getPayroll_recordAudit b _ now ap "approve" "payroll" _ none pid).trans
            (getPayroll_updatePayroll_self _ hq),
          Or.inr ⟨not_not.mp hst, rfl⟩⟩
      · exact ⟨p,
          (getPayroll_recordAudit b _ now ap "approve" "payroll" _ none pid).trans
            ((getPayroll_updatePayroll_ne _ hpp).trans hp),
          Or.inl rfl⟩

theorem applyOp_markPaid_status {st : Storage} {pid : Nat} {p : PayrollRec}
    (hp : getPayroll st pid = some p) (now : Int) (b : Bool)
    (actor pid2 : Nat) :
    ∃ p1, getPayroll (applyOp now b st (Op.markPaidOp actor pid2)) pid = some p1 ∧
      (p1.status = p.status ∨ (p.status = .approved ∧ p1.status = .paid)) := by
  simp only [applyOp, runOp, Ops.markPaid]
  cases hq : getPayroll st pid2 with
  | none => exact ⟨p, hp, Or.inl rfl⟩
  | some q =>
    simp only
    by_cases hst : q.status ≠ PayStatus.approved
    · rw [if_pos hst]; exact ⟨p, hp, Or.inl rfl⟩
    · rw [if_neg hst]
      by_cases hpp : pid = pid2
      · subst hpp
        have hqp : q = p := by
          rw [hq] at hp
          exact Option.some.inj hp
        subst hqp
        exact ⟨_,
          (getPayroll_recordAudit b _ now actor "paid" "payroll" _ none pid).trans
            (getPayroll_updatePayroll_self _ hq),
          Or.inr ⟨not_not.mp hst, rfl⟩⟩
      · exact ⟨p,
          (getPayroll_recordAudit b _ now actor "paid" "payroll" _ none pid).trans
            ((getPayroll_updatePayroll_ne _ hpp).trans hp),
          Or.inl rfl⟩

theorem applyOp_supersede_getPayroll (now : Int) (b : Bool) (st : Storage)
    (actor : Nat) (ins : InsertSalaryStructure) (pid : Nat) :
    getPayroll (applyOp now b st (Op.supersedeOp actor ins)) pid =
      getPayroll st pid := by
  simp only [applyOp, runOp, Ops.supersede]
  cases he : getEmployee st ins.employeeId with
  | none => rfl
  | some emp =>
    simp only
    by_cases hs : ins.status = true
    · rw [if_pos hs]
      cases hc : getCurrentSalaryStructure st ins.employeeId now with
      | none =>
        exact getPayroll_recordAudit b _ now actor "create" "salary" _ none pid
      | some cur =>
        exact (getPayroll_recordAudit b _ now actor "create" "salary" _ none pid).trans
          (getPayroll_eq_of_payrolls_eq (payrolls_updateSalaryStructure st cur.id _) pid)
    · rw [if_neg hs]
      exact getPayroll_recordAudit b _ now actor "create" "salary" _ none pid

/-- One operation changes one payroll's status at most one step forward
along draft → approved → paid, and never removes the payroll. -/
theorem applyOp_status_step {st : Storage} {pid : Nat} {p : PayrollRec}
    (hp : getPayroll st pid = some p) (now : Int) (b : Bool) (op : Op) :
    ∃ p1, getPayroll (applyOp now b st op) pid = some p1 ∧
      (p1.status = p.status ∨ (p.status = .draft ∧ p1.status = .approved) ∨
        (p.status = .approved ∧ p1.status = .paid)) := by
  cases op with
  | createOp actor ins =>
    exact ⟨p, applyOp_create_getPayroll hp now b actor ins, Or.inl rfl⟩
  | addItemOp item =>
    obtain ⟨p1, h1, h2⟩ := applyOp_addItem_status hp now b item
    exact ⟨p1, h1, Or.inl h2⟩
  | approveOp pid2 ap =>
    obtain ⟨p1, h1, h2⟩ := applyOp_approve_status hp now b pid2 ap
    rcases h2 with h2 | h2
    · exact ⟨p1, h1, Or.inl h2⟩
    · exact ⟨p1, h1, Or.inr (Or.inl h2)⟩
  | markPaidOp actor pid2 =>
    obtain ⟨p1, h1, h2⟩ := applyOp_markPaid_status hp now b actor pid2
    rcases h2 with h2 | h2
    · exact ⟨p1, h1, Or.inl h2⟩
    · exact ⟨p1, h1, Or.inr (Or.inr h2)⟩
  | supersedeOp actor ins =>
    rw [applyOp_supersede_getPayroll]
    exact ⟨p, hp, Or.inl rfl⟩

/-- Along any sequence of operations the status rank of an existing
payroll never decreases. -/
theorem applyOps_status_mono (now : Int) (b : Bool) (pid : Nat) :
    ∀ (ops : List Op) (st : Storage) (p : PayrollRec),
      getPayroll st pid = some p →
      ∃ p1, getPayroll (applyOps now b st ops) pid = some p1 ∧
        statusRank p.status ≤ statusRank p1.status := by
  intro ops
  induction ops with
  | nil => exact fun st p hp => ⟨p, hp, le_refl _⟩
  | cons op rest ih =>
    intro st p hp
    obtain ⟨p1, h1, h2⟩ := applyOp_status_step hp now b op
    obtain ⟨p2, h3, h4⟩ := ih _ _ h1
    refine ⟨p2, h3, le_trans ?_ h4⟩
    rcases h2 with h | ⟨hd, ha⟩ | ⟨ha, hpd⟩
    · rw [h]
    · rw [hd, ha]; exact Nat.le_of_lt (by decide)
    · rw [ha, hpd]; exact Nat.le_of_lt (by decide)

/-- C1: `approve` succeeds exactly when the payroll's status is `draft`
and fails with `InvalidState` from `approved` or `paid`; `markPaid`
succeeds exactly when the status is `approved` and fails with
`InvalidState` from `draft` or `paid`; each operation moves a payroll's
status forward by at most one step, and along every sequence of
operations the status never reverses along draft → approved → paid. -/
theorem c1_status_machine (now : Int) (b : Bool) (st : Storage)
    (pid approver actor : Nat) (p : PayrollRec)
    (hp : getPayroll st pid = some p) :
    ((∃ st1, Ops.approve now b st pid approver = .ok st1) ↔ p.status = .draft)
    ∧ (p.status = .approved ∨ p.status = .paid →
        Ops.approve now b st pid approver = .error .InvalidState)
    ∧ ((∃ st1, Ops.markPaid now b st pid actor = .ok st1) ↔ p.status = .approved)
    ∧ (p.status = .draft ∨ p.status = .paid →
        Ops.markPaid now b st pid actor = .error .InvalidState)
    ∧ (∀ op, ∃ p1, getPayroll (applyOp now b st op) pid = some p1 ∧
        (statusRank p1.status = statusRank p.status ∨
          statusRank p1.status = statusRank p.status + 1))
    ∧ (∀ ops, ∃ p1, getPayroll (applyOps now b st ops) pid = some p1 ∧
        statusRank p.status ≤ statusRank p1.status) := by
  refine ⟨?_, ?_, ?_, ?_, ?_, ?_⟩
  · unfold Ops.approve
    rw [hp]
    by_cases hd : p.status = PayStatus.draft <;> simp [hd]
  · intro h
    unfold Ops.approve
    rw [hp]
    rcases h with h | h <;> simp [h]
  · unfold Ops.markPaid
    rw [hp]
    by_cases hd : p.status = PayStatus.approved <;> simp [hd]
  · intro h
    unfold Ops.markPaid
    rw [hp]
    rcases h with h | h <;> simp [h]
  · intro op
    obtain ⟨p1, h1, h2⟩ := applyOp_status_step hp now b op
    refine ⟨p1, h1, ?_⟩
    rcases h2 with h | ⟨hd, ha⟩ | ⟨ha, hpd⟩
    · exact Or.inl (by rw [h])
    · exact Or.inr (by rw [hd, ha]; rfl)
    · exact Or.inr (by rw [ha, hpd]; rfl)
  · exact fun ops => applyOps_status_mono now b pid ops st p hp

/-- The draft payroll used to witness C1. -/
def c1P : PayrollRec :=
  { id := 1
    employeeId := 1
    payPeriodStart := 0
    payPeriodEnd := 30
    processDate := 5
    basicSalary := 500000
    totalEarnings := 0
    totalDeductions := 0
    netSalary := 500000
    status := .draft
    approvedBy := none
    approvalDate := none }

/-- Storage holding the draft payroll `c1P`. -/
def c1St : Storage :=
  { emptyStorage with payrolls := [c1P], payrollCurrentId := 2 }

/-- Witness for C1 on the concrete draft payroll: `approve` succeeds,
`markPaid` from `draft` is rejected, and after approve-then-pay the status
rank has not decreased. -/
theorem c1_status_machine_witness :
    (∃ st1, Ops.approve 7 true c1St 1 3 = .ok st1) ∧
    Ops.markPaid 7 true c1St 1 9 = .error .InvalidState ∧
    ∃ p1, getPayroll (applyOps 7 true c1St [Op.approveOp 1 3, Op.markPaidOp 9 1]) 1 =
        some p1 ∧ statusRank c1P.status ≤ statusRank p1.status := by
  have h := c1_status_machine 7 true c1St 1 3 9 c1P rfl
  exact ⟨h.1.mpr rfl, h.2.2.2.1 (Or.inl rfl),
    h.2.2.2.2.2 [Op.approveOp 1 3, Op.markPaidOp 9 1]⟩

/-! ## Shape of a successful add-item call -/

theorem payrollItems_recordAudit (bb : Bool) (st : Storage) (now : Int) (a : Nat)
    (act ety : String) (eid : Option Nat) (det : Option String) :
    (recordAudit bb st now a act ety eid det).payrollItems = st.payrollItems := by
  cases bb <;> rfl

theorem payrollItems_updatePayroll (st : Storage) (pid : Nat) (d : PayrollPatch) :
    (updatePayroll st pid d).payrollItems = st.payrollItems := by
  unfold updatePayroll
  split <;> rfl

/-- The item inserted by the add-item handler. -/
def addedItem (st : Storage) (item : InsertPayrollItem) : PayrollItem :=
  { id := st.payrollItemCurrentId
    payrollId := item.payrollId
    itemType := item.itemType
    itemName := item.itemName
    amount := item.amount
    description := item.description }

/-- The storage after the add-item handler has inserted its item (before
the totals are re-persisted). -/
def afterInsert (st : Storage) (item : InsertPayrollItem) : Storage :=
  { st with
      payrollItems := st.payrollItems ++ [addedItem st item]
      payrollItemCurrentId := st.payrollItemCurrentId + 1 }

/-- The totals patch the add-item handler persists after inserting its
item. -/
def recomputePatch (st : Storage) (item : InsertPayrollItem)
    (basic : Int) : PayrollPatch :=
  { totalEarnings :=
      some (itemSum (afterInsert st item).payrollItems item.payrollId .earning)
    totalDeductions :=
      some (itemSum (afterInsert st item).payrollItems item.payrollId .deduction)
    netSalary := some (basic +
      itemSum (afterInsert st item).payrollItems item.payrollId .earning -
      itemSum (afterInsert st item).payrollItems item.payrollId .deduction) }

/-- Shape of a successful `addItem`: the owning payroll was draft, the
item list gains exactly the new item at the end, and the owning payroll is
re-stored with the recomputed-totals patch applied. -/
theorem addItem_ok {now : Int} {b : Bool} {st : Storage}
    {item : InsertPayrollItem} {st1 : Storage}
    (h : Ops.addItem now b st item = .ok st1) :
    ∃ q, getPayroll st item.payrollId = some q ∧ q.status = .draft ∧
      st1.payrollItems = st.payrollItems ++ [addedItem st item] ∧
      getPayroll st1 item.payrollId =
        some (q.applyPatch (recomputePatch st item q.basicSalary)) := by
  unfold Ops.addItem at h
  cases hq : getPayroll st item.payrollId with
  | none => rw [hq] at h; exact absurd h (by simp)
  | some q =>
    rw [hq] at h
    simp only at h
    by_cases hst : q.status ≠ PayStatus.draft
    · rw [if_pos hst] at h
      exact absurd h (by simp)
    · rw [if_neg hst] at h
      have hx := Except.ok.inj h
      refine ⟨q, rfl, not_not.mp hst, ?_, ?_⟩
      · rw [← hx, payrollItems_updatePayroll]
        rfl
      · rw [← hx]
        have hq1 : getPayroll (afterInsert st item) item.payrollId = some q := hq
        exact getPayroll_updatePayroll_self _ hq1

/-! ## C3: addItem guards -/

/-- A draft payroll (id 1) used for the C3 counterexample and witness. -/
def c3P : PayrollRec :=
  { id := 1
    employeeId := 1
    payPeriodStart := 0
    payPeriodEnd := 30
    processDate := 5
    basicSalary := 500000
    totalEarnings := 0
    totalDeductions := 0
    netSalary := 500000
    status := .draft
    approvedBy := none
    approvalDate := none }

/-- An approved payroll (id 2) used for the C3 witness. -/
def c3Q : PayrollRec :=
  { c3P with id := 2, status := .approved, approvedBy := some 3, approvalDate := some 6 }

/-- Storage holding the draft payroll `c3P` and the approved payroll `c3Q`. -/
def c3St : Storage :=
  { emptyStorage with payrolls := [c3P, c3Q], payrollCurrentId := 3 }

/-- An item request with a negative amount and an empty name. -/
def c3Bad : InsertPayrollItem :=
  { payrollId := 1, itemType := .deduction, itemName := "",
    amount := -100, description := none }

/-- Counterexample to C3 as stated: on the draft payroll, an item with a
negative amount and an empty name does not fail with `ValidationError` —
the handler performs no such validation (`insertPayrollItemSchema` imposes
no amount or name constraint) and inserts the item. -/
theorem c3_counterexample :
    c3Bad.amount < 0 ∧ c3Bad.itemName = "" ∧
    (∃ p, getPayroll c3St 1 = some p ∧ p.status = .draft) ∧
    Ops.addItem 7 true c3St c3Bad ≠ .error .ValidationError ∧
    ∃ st1, Ops.addItem 7 true c3St c3Bad = .ok st1 ∧
      st1.payrollItems = c3St.payrollItems ++ [addedItem c3St c3Bad] := by
  refine ⟨by decide, rfl, ⟨c3P, rfl, rfl⟩, fun hcon => Except.noConfusion hcon,
    _, rfl, rfl⟩

/-- C3 (amended): `addItem` fails with `InvalidState` whenever the owning
payroll's status is not `draft` (even if it previously succeeded on the
same payroll while draft), and then no item is inserted and the storage is
unchanged; on a draft payroll it always succeeds and inserts the item —
the handler performs no amount or name validation, so a negative amount or
an empty name is accepted. -/
theorem c3_addItem_guards (now : Int) (b : Bool) (st : Storage)
    (item : InsertPayrollItem) (p : PayrollRec)
    (hp : getPayroll st item.payrollId = some p) :
    (p.status ≠ .draft →
      Ops.addItem now b st item = .error .InvalidState ∧
      applyOp now b st (.addItemOp item) = st)
    ∧ (p.status = .draft →
      ∃ st1, Ops.addItem now b st item = .ok st1 ∧
        st1.payrollItems = st.payrollItems ++ [addedItem st item]) := by
  constructor
  · intro hs
    have h1 : Ops.addItem now b st item = .error .InvalidState := by
      unfold Ops.addItem
      rw [hp]
      simp only
      rw [if_pos hs]
    exact ⟨h1, by simp [applyOp, runOp, h1]⟩
  · intro hs
    have hok : Ops.addItem now b st item =
        .ok (updatePayroll (createPayrollItem st item).1 item.payrollId
          { totalEarnings :=
              some (sumAmounts (createPayrollItem st item).1 item.payrollId .earning)
            totalDeductions :=
              some (sumAmounts (createPayrollItem st item).1 item.payrollId .deduction)
            netSalary := some (p.basicSalary +
              sumAmounts (createPayrollItem st item).1 item.payrollId .earning -
              sumAmounts (createPayrollItem st item).1 item.payrollId .deduction) }) := by
      unfold Ops.addItem
      rw [hp]
      simp only
      rw [if_neg (by simp [hs])]
    refine ⟨_, hok, ?_⟩
    rw [payrollItems_updatePayroll]
    rfl

/-- An earning item request targeting the approved payroll `c3Q`. -/
def c3ToApproved : InsertPayrollItem :=
  { payrollId := 2, itemType := .earning, itemName := "Bonus",
    amount := 100, description := none }

/-- Witness for C3 (amended): adding to the approved payroll fails
`InvalidState` with the storage unchanged, and the invalid item is
accepted on the draft payroll. -/
theorem c3_addItem_guards_witness :
    (Ops.addItem 7 true c3St c3ToApproved = .error .InvalidState ∧
      applyOp 7 true c3St (.addItemOp c3ToApproved) = c3St) ∧
    ∃ st1, Ops.addItem 7 true c3St c3Bad = .ok st1 ∧
      st1.payrollItems = c3St.payrollItems ++ [addedItem c3St c3Bad] := by
  refine ⟨?_, ?_⟩
  · exact (c3_addItem_guards 7 true c3St c3ToApproved c3Q rfl).1 (by decide)
  · exact (c3_addItem_guards 7 true c3St c3Bad c3P rfl).2 rfl

/-! ## C2: where the stored totals are and are not the recomputed sums -/

/-- The employee used by the C2 counterexample. -/
def c2Emp : Employee := { id := 1, userId := none, employeeId := "EMP-001" }

/-- Storage holding only the employee `c2Emp`. -/
def c2St : Storage :=
  { emptyStorage with employees := [c2Emp], employeeCurrentId := 2 }

/-- A create request whose client-supplied `netSalary` does not satisfy
netSalary = basicSalary + totalEarnings − totalDeductions. -/
def c2Ins : InsertPayroll :=
  { employeeId := 1
    payPeriodStart := 0
    payPeriodEnd := 30
    processDate := 0
    basicSalary := 500000
    totalEarnings := 0
    totalDeductions := 0
    netSalary := 999
    status := .draft
    approvedBy := none }

/-- Counterexample to C2 as stated: the create handler stores the
request's `totalEarnings`, `totalDeductions` and `netSalary` verbatim with
no recomputation, so immediately after a successful create the stored
`netSalary` can differ from basicSalary + totalEarnings − totalDeductions
(here: 999 against 500000 + 0 − 0) even though the payroll has no items. -/
theorem c2_counterexample :
    ∃ st1 p, Ops.create 5 true c2St 9 c2Ins = .ok st1 ∧
      getPayroll st1 1 = some p ∧
      st1.payrollItems = [] ∧
      p.netSalary ≠ p.basicSalary + p.totalEarnings - p.totalDeductions := by
  refine ⟨_, _, rfl, rfl, rfl, by decide⟩

/-- C2 (amended): after each successful `addItem` the owning payroll's
stored totalEarnings and totalDeductions equal the recomputed sums of its
items by type and its stored netSalary equals
basicSalary + totalEarnings − totalDeductions; `approve` and `markPaid`
leave all monetary fields unchanged; `create`, however, stores the
request's totals and net salary verbatim, so the relation holds right
after create only if the client supplied consistent values. -/
theorem c2_totals_recomputed_by_addItem (now : Int) (b : Bool) (st : Storage) :
    (∀ item st1, Ops.addItem now b st item = .ok st1 →
      ∃ u, getPayroll st1 item.payrollId = some u ∧
        u.totalEarnings = sumAmounts st1 item.payrollId .earning ∧
        u.totalDeductions = sumAmounts st1 item.payrollId .deduction ∧
        u.netSalary = u.basicSalary + u.totalEarnings - u.totalDeductions)
    ∧ (∀ pid ap st1 q, getPayroll st pid = some q →
      Ops.approve now b st pid ap = .ok st1 →
      ∃ u, getPayroll st1 pid = some u ∧
        u.totalEarnings = q.totalEarnings ∧
        u.totalDeductions = q.totalDeductions ∧
        u.netSalary = q.netSalary ∧ u.basicSalary = q.basicSalary)
    ∧ (∀ pid actor st1 q, getPayroll st pid = some q →
      Ops.markPaid now b st pid actor = .ok st1 →
      ∃ u, getPayroll st1 pid = some u ∧
        u.totalEarnings = q.totalEarnings ∧
        u.totalDeductions = q.totalDeductions ∧
        u.netSalary = q.netSalary ∧ u.basicSalary = q.basicSalary) := by
  refine ⟨?_, ?_, ?_⟩
  · intro item st1 h
    obtain ⟨q, hq, hqd, hitems, hget⟩ := addItem_ok h
    refine ⟨_, hget, ?_, ?_, ?_⟩
    · rw [show sumAmounts st1 item.payrollId ItemType.earning
          = itemSum st1.payrollItems item.payrollId ItemType.earning from rfl, hitems]
      rfl
    · rw [show sumAmounts st1 item.payrollId ItemType.deduction
          = itemSum st1.payrollItems item.payrollId ItemType.deduction from rfl, hitems]
      rfl
    · rfl
  · intro pid ap st1 q hq h
    unfold Ops.approve at h
    rw [hq] at h
    simp only at h
    by_cases hst : q.status ≠ PayStatus.draft
    · rw [if_pos hst] at h
      exact absurd h (by simp)
    · rw [if_neg hst] at h
      have hx := Except.ok.inj h
      refine ⟨q.applyPatch
        { status := some .approved
          approvedBy := some (some ap)
          approvalDate := some (some now) }, ?_, rfl, rfl, rfl, rfl⟩
      rw [← hx, getPayroll_recordAudit]
      exact getPayroll_updatePayroll_self _ hq
  · intro pid actor st1 q hq h
    unfold Ops.markPaid at h
    rw [hq] at h
    simp only at h
    by_cases hst : q.status ≠ PayStatus.approved
    · rw [if_pos hst] at h
      exact absurd h (by simp)
    · rw [if_neg hst] at h
      have hx := Except.ok.inj h
      refine ⟨q.applyPatch { status := some .paid }, ?_, rfl, rfl, rfl, rfl⟩
      rw [← hx, getPayroll_recordAudit]
      exact getPayroll_updatePayroll_self _ hq

/-- Witness for C2 (amended): adding an earning to the concrete draft
payroll leaves the stored totals equal to the recomputed sums and the net
salary equal to basic + earnings − deductions. -/
theorem c2_totals_recomputed_by_addItem_witness :
    ∃ st1, Ops.addItem 7 true c3St
        { payrollId := 1, itemType := .earning, itemName := "Bonus",
          amount := 50000, description := none } = .ok st1 ∧
      ∃ u, getPayroll st1 1 = some u ∧
        u.totalEarnings = sumAmounts st1 1 .earning ∧
        u.totalDeductions = sumAmounts st1 1 .deduction ∧
        u.netSalary = u.basicSalary + u.totalEarnings - u.totalDeductions := by
  refine ⟨_, rfl, ?_⟩
  exact (c2_totals_recomputed_by_addItem 7 true c3St).1
    { payrollId := 1, itemType := .earning, itemName := "Bonus",
      amount := 50000, description := none } _ rfl

/-! ## C5: the basic salary comes from the request body -/

/-- The payroll row inserted by a successful create on storage `st`: the
request body with `processDate` overridden by the server time and the
generated id. -/
def createdFromBody (st : Storage) (now : Int) (ins : InsertPayroll) :
    PayrollRec :=
  { id := st.payrollCurrentId
    employeeId := ins.employeeId
    payPeriodStart := ins.payPeriodStart
    payPeriodEnd := ins.payPeriodEnd
    processDate := now
    basicSalary := ins.basicSalary
    totalEarnings := ins.totalEarnings
    totalDeductions := ins.totalDeductions
    netSalary := ins.netSalary
    status := ins.status
    approvedBy := ins.approvedBy
    approvalDate := none }

/-- The employee used by the C5 counterexample and witness. -/
def c5Emp : Employee := { id := 1, userId := none, employeeId := "EMP-001" }

/-- Storage holding the employee `c5Emp` and no salary structures. -/
def c5St : Storage :=
  { emptyStorage with employees := [c5Emp], employeeCurrentId := 2 }

/-- A create request for employee 1 carrying basicSalary 123.00. -/
def c5Ins : InsertPayroll :=
  { employeeId := 1
    payPeriodStart := 0
    payPeriodEnd := 30
    processDate := 0
    basicSalary := 12300
    totalEarnings := 0
    totalDeductions := 0
    netSalary := 12300
    status := .draft
    approvedBy := none }

/-- Counterexample to C5 as stated: employee 1 exists but has no salary
structure at all, yet create succeeds (it does not fail with `NotFound`)
and stores the request body's basic salary — the handler never consults
`getCurrentSalaryStructure`; the basic salary is always the client-supplied
value. -/
theorem c5_counterexample :
    getCurrentSalaryStructure c5St 1 5 = none ∧
    Ops.create 5 true c5St 9 c5Ins ≠ .error .NotFound ∧
    ∃ st1 p, Ops.create 5 true c5St 9 c5Ins = .ok st1 ∧
      getPayroll st1 1 = some p ∧ p.basicSalary = 12300 := by
  refine ⟨rfl, fun hcon => Except.noConfusion hcon, _, _, rfl, rfl, rfl⟩

/-- C5 (amended): create takes the basic salary (and the other monetary
fields and the status) verbatim from the request body — the explicit value
is in effect a mandatory override — and never consults the current salary
structure; it fails with `NotFound` exactly when the referenced employee
does not exist, in which case no payroll record is created. -/
theorem c5_create_from_body (now : Int) (b : Bool) (st : Storage)
    (actor : Nat) (ins : InsertPayroll) :
    (getEmployee st ins.employeeId = none →
      Ops.create now b st actor ins = .error .NotFound ∧
      applyOp now b st (.createOp actor ins) = st)
    ∧ (∀ emp, getEmployee st ins.employeeId = some emp →
      ∃ st1, Ops.create now b st actor ins = .ok st1 ∧
        st1.payrolls = st.payrolls ++ [createdFromBody st now ins]) := by
  constructor
  · intro h
    have hc : Ops.create now b st actor ins = .error .NotFound := by
      unfold Ops.create
      rw [h]
    exact ⟨hc, by simp [applyOp, runOp, hc]⟩
  · intro emp h
    unfold Ops.create
    rw [h]
    simp only
    refine ⟨_, rfl, ?_⟩
    rw [payrolls_recordAudit]
    rfl

/-- Witness for C5 (amended): on the empty storage (employee 1 missing)
create fails `NotFound` and changes nothing; with the employee present it
succeeds and appends the request-body payroll. -/
theorem c5_create_from_body_witness :
    (Ops.create 5 true emptyStorage 9 c5Ins = .error .NotFound ∧
      applyOp 5 true emptyStorage (.createOp 9 c5Ins) = emptyStorage) ∧
    ∃ st1, Ops.create 5 true c5St 9 c5Ins = .ok st1 ∧
      st1.payrolls = c5St.payrolls ++ [createdFromBody c5St 5 c5Ins] :=
  ⟨(c5_create_from_body 5 true emptyStorage 9 c5Ins).1 rfl,
    (c5_create_from_body 5 true c5St 9 c5Ins).2 c5Emp rfl⟩

/-! ## C8: what the salary-structure create leaves active-and-current -/

theorem salaryStructures_recordAudit (bb : Bool) (st : Storage) (now : Int)
    (a : Nat) (act ety : String) (eid : Option Nat) (det : Option String) :
    (recordAudit bb st now a act ety eid det).salaryStructures =
      st.salaryStructures := by
  cases bb <;> rfl

theorem salaryStructureCurrentId_updateSalaryStructure (st : Storage) (id : Nat)
    (d : SalaryStructurePatch) :
    (updateSalaryStructure st id d).salaryStructureCurrentId =
      st.salaryStructureCurrentId := by
  unfold updateSalaryStructure
  split <;> rfl

/-- The salary-structure row inserted by `createSalaryStructure` on
storage `st`. -/
def insertedStructure (st : Storage) (ins : InsertSalaryStructure) :
    SalaryStructure :=
  { id := st.salaryStructureCurrentId
    employeeId := ins.employeeId
    basicSalary := ins.basicSalary
    houseRentAllowance := ins.houseRentAllowance
    conveyanceAllowance := ins.conveyanceAllowance
    medicalAllowance := ins.medicalAllowance
    specialAllowance := ins.specialAllowance
    effectiveFrom := ins.effectiveFrom
    effectiveTo := ins.effectiveTo
    status := ins.status }

theorem salaryStructures_createSalaryStructure (st : Storage)
    (ins : InsertSalaryStructure) :
    (createSalaryStructure st ins).1.salaryStructures =
      st.salaryStructures ++ [insertedStructure st ins] := rfl

/-- The retire patch applied to the previously current structure. -/
def retirePatch (ins : InsertSalaryStructure) : SalaryStructurePatch :=
  { status := some false, effectiveTo := some (some ins.effectiveFrom) }

theorem insertedStructure_updateSalaryStructure (st : Storage) (id : Nat)
    (d : SalaryStructurePatch) (ins : InsertSalaryStructure) :
    insertedStructure (updateSalaryStructure st id d) ins =
      insertedStructure st ins := by
  unfold insertedStructure
  rw [salaryStructureCurrentId_updateSalaryStructure]

/-- The employee used by the C8 counterexample. -/
def c8cEmp : Employee := { id := 1, userId := none, employeeId := "EMP-001" }

/-- The single active-and-current structure of employee 1 before the
future-dated create. -/
def c8cS : SalaryStructure :=
  { id := 1
    employeeId := 1
    basicSalary := 400000
    houseRentAllowance := none
    conveyanceAllowance := none
    medicalAllowance := none
    specialAllowance := none
    effectiveFrom := 10
    effectiveTo := none
    status := true }

/-- Storage for the C8 counterexample. -/
def c8cSt : Storage :=
  { emptyStorage with
      employees := [c8cEmp]
      employeeCurrentId := 2
      salaryStructures := [c8cS]
      salaryStructureCurrentId := 2 }

/-- A future-dated active structure: effectiveFrom 200 while the operation
runs at time 100. -/
def c8cIns : InsertSalaryStructure :=
  { employeeId := 1
    basicSalary := 500000
    houseRentAllowance := none
    conveyanceAllowance := none
    medicalAllowance := none
    specialAllowance := none
    effectiveFrom := 200
    effectiveTo := none
    status := true }

/-- Counterexample to C8 as stated: before the operation employee 1 has
exactly one active-and-current structure; a successful create of a
future-dated active structure retires it but the new structure is not yet
current, leaving ZERO active-and-current structures — the claim's "never
zero" fails. -/
theorem c8_counterexample :
    getCurrentSalaryStructure c8cSt 1 100 = some c8cS ∧
    ∃ st1, Ops.supersede 100 true c8cSt 9 c8cIns = .ok st1 ∧
      st1.salaryStructures.filter (qualifies 100 1) = [] := by
  refine ⟨by decide, _, rfl, by decide⟩

/-- C8 (amended): a successful create of an active structure retires the
previously active-and-current structure of that employee (active flag
cleared, effectiveTo closed at the new structure's effectiveFrom) within
the same operation; provided the employee exists, at most one structure
was active-and-current before, and the new structure's validity window
covers the operation time, exactly one structure — the newly inserted
one — is active-and-current afterwards; a future-dated create instead
leaves zero (see the counterexample). -/
theorem c8_supersede_unique_current (now : Int) (b : Bool) (st : Storage)
    (actor : Nat) (ins : InsertSalaryStructure) (emp : Employee)
    (hemp : getEmployee st ins.employeeId = some emp)
    (hwf : ∀ s ∈ st.salaryStructures, s.id < st.salaryStructureCurrentId)
    (huniq : ∀ s1 ∈ st.salaryStructures, ∀ s2 ∈ st.salaryStructures,
      qualifies now ins.employeeId s1 = true →
      qualifies now ins.employeeId s2 = true → s1.id = s2.id)
    (hqualnew : qualifies now ins.employeeId (insertedStructure st ins) = true) :
    ∃ st1, Ops.supersede now b st actor ins = .ok st1 ∧
      st1.salaryStructures.filter (qualifies now ins.employeeId) =
        [insertedStructure st ins] ∧
      (∀ cur, getCurrentSalaryStructure st ins.employeeId now = some cur →
        ∀ s ∈ st1.salaryStructures, s.id = cur.id →
          s.status = false ∧ s.effectiveTo = some ins.effectiveFrom) := by
  have hins : ins.status = true := by
    by_contra hne
    have hss : ins.status = false := Bool.eq_false_iff.mpr hne
    simp [qualifies, insertedStructure, hss] at hqualnew
  cases hc : getCurrentSalaryStructure st ins.employeeId now with
  | none =>
    refine ⟨recordAudit b (createSalaryStructure st ins).1 now actor "create"
      "salary" (some (createSalaryStructure st ins).2.id) none, ?_, ?_, ?_⟩
    · unfold Ops.supersede
      rw [hemp]
      simp only
      rw [if_pos hins, hc]
    · rw [salaryStructures_recordAudit, salaryStructures_createSalaryStructure,
        List.filter_append]
      have hempty : st.salaryStructures.filter (qualifies now ins.employeeId) = [] :=
        selectCurrent_eq_none.mp hc
      rw [hempty]
      simp [hqualnew]
    · intro cur hcur
      exact absurd hcur (by simp)
  | some cur0 =>
    obtain ⟨pre, post, hfil, hpre, hpost⟩ := selectCurrent_eq_some hc
    have hcur_fil : cur0 ∈ st.salaryStructures.filter (qualifies now ins.employeeId) := by
      rw [hfil]
      exact List.mem_append.mpr (Or.inr (List.mem_cons_self _ _))
    have hcur_mem : cur0 ∈ st.salaryStructures := (List.mem_filter.mp hcur_fil).1
    have hcur_qual : qualifies now ins.employeeId cur0 = true :=
      (List.mem_filter.mp hcur_fil).2
    have hfsome : (st.salaryStructures.find? (fun s => s.id == cur0.id)).isSome :=
      List.find?_isSome.mpr ⟨cur0, hcur_mem, by simp⟩
    obtain ⟨s0, hf⟩ := Option.isSome_iff_exists.mp hfsome
    have hU : (updateSalaryStructure st cur0.id (retirePatch ins)).salaryStructures =
        st.salaryStructures.map
          (fun q => if q.id == cur0.id then s0.applyPatch (retirePatch ins) else q) := by
      unfold updateSalaryStructure
      rw [hf]
    refine ⟨recordAudit b
      (createSalaryStructure (updateSalaryStructure st cur0.id (retirePatch ins)) ins).1
      now actor "create" "salary"
      (some (createSalaryStructure
        (updateSalaryStructure st cur0.id (retirePatch ins)) ins).2.id) none,
      ?_, ?_, ?_⟩
    · unfold Ops.supersede
      rw [hemp]
      simp only
      rw [if_pos hins, hc]
      rfl
    · rw [salaryStructures_recordAudit, salaryStructures_createSalaryStructure,
        insertedStructure_updateSalaryStructure, List.filter_append, hU]
      have hmapnil : (st.salaryStructures.map
          (fun q => if q.id == cur0.id then s0.applyPatch (retirePatch ins) else q)).filter
            (qualifies now ins.employeeId) = [] := by
        apply List.filter_eq_nil_iff.mpr
        intro x hx
        rcases List.mem_map.mp hx with ⟨r, hr, hre⟩
        by_cases hid : (r.id == cur0.id) = true
        · rw [if_pos hid] at hre
          rw [← hre]
          simp [qualifies, SalaryStructure.applyPatch, retirePatch]
        · rw [if_neg hid] at hre
          rw [← hre]
          intro hqr
          exact hid (by simp [huniq r hr cur0 hcur_mem hqr hcur_qual])
      rw [hmapnil]
      simp [hqualnew]
    · intro cur hcur
      have hcc : cur0 = cur := Option.some.inj hcur
      subst hcc
      intro s hs hsid
      rw [salaryStructures_recordAudit, salaryStructures_createSalaryStructure] at hs
      rcases List.mem_append.mp hs with hs | hs
      · rw [hU] at hs
        rcases List.mem_map.mp hs with ⟨r, hr, hre⟩
        by_cases hid : (r.id == cur0.id) = true
        · rw [if_pos hid] at hre
          rw [← hre]
          exact ⟨rfl, rfl⟩
        · rw [if_neg hid] at hre
          rw [← hre] at hsid
          exact absurd (by simp [hsid]) hid
      · exfalso
        have hseq := List.mem_singleton.mp hs
        rw [hseq] at hsid
        have hidc : (insertedStructure
            (updateSalaryStructure st cur0.id (retirePatch ins)) ins).id =
            st.salaryStructureCurrentId :=
          salaryStructureCurrentId_updateSalaryStructure st cur0.id (retirePatch ins)
        rw [hidc] at hsid
        have hlt := hwf cur0 hcur_mem
        rw [hsid] at hlt
        exact absurd hlt (lt_irrefl _)

/-- The employee used by the C8 witness. -/
def c8Emp : Employee := { id := 1, userId := none, employeeId := "EMP-001" }

/-- The single active-and-current structure of employee 1 used by the C8
witness. -/
def c8S : SalaryStructure :=
  { id := 1
    employeeId := 1
    basicSalary := 400000
    houseRentAllowance := none
    conveyanceAllowance := none
    medicalAllowance := none
    specialAllowance := none
    effectiveFrom := 10
    effectiveTo := none
    status := true }

/-- Storage for the C8 witness. -/
def c8St : Storage :=
  { emptyStorage with
      employees := [c8Emp]
      employeeCurrentId := 2
      salaryStructures := [c8S]
      salaryStructureCurrentId := 2 }

/-- The new active structure inserted by the witness create, current at
the operation time. -/
def c8Ins : InsertSalaryStructure :=
  { employeeId := 1
    basicSalary := 500000
    houseRentAllowance := none
    conveyanceAllowance := none
    medicalAllowance := none
    specialAllowance := none
    effectiveFrom := 50
    effectiveTo := none
    status := true }

/-- Witness for C8 (amended): superseding the single active structure of
employee 1 at time 100 with a structure effective from 50 leaves exactly
the new structure active-and-current and closes out the old one. -/
theorem c8_supersede_unique_current_witness :
    ∃ st1, Ops.supersede 100 true c8St 9 c8Ins = .ok st1 ∧
      st1.salaryStructures.filter (qualifies 100 1) =
        [insertedStructure c8St c8Ins] ∧
      (∀ cur, getCurrentSalaryStructure c8St 1 100 = some cur →
        ∀ s ∈ st1.salaryStructures, s.id = cur.id →
          s.status = false ∧ s.effectiveTo = some 50) :=
  c8_supersede_unique_current 100 true c8St 9 c8Ins c8Emp rfl
    (by decide) (by decide) (by decide)

end Payroll
